import Mathlib

/-!
Shallow embedding of the join-zoom meeting resolution engine
(`zoom-alfred.py`, `constants.py`): link extraction (`get_zoom_link`),
event normalization (`parse_events` / its per-event `augment`,
`parse_event_datetime`), and meeting resolution (`find_meeting_to_join`).

Modelling choices:
* Python strings become `List Char` (`Str`); `"x" in s` becomes list
  infix (`<:+:`), `s.split(",")` becomes `splitOnComma`.
* `datetime` instants become `Int` (an abstract absolute time scale in
  which `timedelta(minutes=m)` is the integer `m`);
  `datetime.fromisoformat` is modelled abstractly: a raw date string is
  either `parseable t` (parses to instant `t`) or `malformed` (raises,
  which `parse_event_datetime` catches, returning `None`).
* Python exceptions (TypeError from comparing `None` with a datetime,
  StopIteration from an exhausted `next(...)`) become `Except Unit`:
  `Except.error ()` marks a raised exception, `Except.ok` a normal
  return.
* Google-calendar dict fields that the code reads with `.get` become
  `Option` fields; fields read with `[...]` (always present) are plain.
-/

deriving instance DecidableEq for Except

abbrev Str := List Char

/-- A raw ISO date/datetime string, abstracted to whether
`datetime.fromisoformat` succeeds on it and, if so, to which instant. -/
inductive RawDT where
  | parseable (t : Int)
  | malformed
deriving DecidableEq

/-- The `start` / `end` dict of a Google calendar event: an optional
`dateTime` key and an optional `date` key. -/
structure DateMarker where
  dateTime : Option RawDT
  date : Option RawDT
deriving DecidableEq

/-- One element of `conferenceData.entryPoints`; the code reads only
`ep.get("uri", "")`. -/
structure EntryPoint where
  uri : Option Str
deriving DecidableEq

/-- The fields of a raw Google calendar event dict that the engine
reads. `id`, `summary`, `start`, `end` are accessed with `event[...]`;
`location` and `conferenceData.entryPoints` with `.get` defaults. -/
structure RawEvent where
  id : Str
  summary : Str
  start : DateMarker
  «end» : DateMarker
  location : Option Str
  conferenceData : Option (List EntryPoint)
deriving DecidableEq

/-- `constants.JOINABLE_IF_NEXT_STARTS_WITHIN` (minutes). -/
def JOINABLE_IF_NEXT_STARTS_WITHIN : Int := 3

/-- `constants.HOURS_AHEAD`. -/
def HOURS_AHEAD : Int := 9

/-- `constants.NUM_NEXT`. -/
def NUM_NEXT : Int := 5

/-- The provider domain marker `"zoom.us"`. -/
def zoomMarker : Str := "zoom.us".toList

/-- `datetime.fromisoformat`, abstracted (see module docstring): on a
malformed value the Python call raises, which the sole caller catches
and turns into `None`; so it is modelled directly as `Option`. -/
def fromisoformat : RawDT → Option Int
  | RawDT.parseable t => some t
  | RawDT.malformed => none

/-- `parse_event_datetime(d)`: `d.get("dateTime", d.get("date"))`,
then `fromisoformat` under a bare `except` returning `None` (both the
TypeError on a missing value and the ValueError on a malformed one are
caught). -/
def parse_event_datetime (d : DateMarker) : Option Int :=
  match d.dateTime.orElse (fun _ => d.date) with
  | none => none
  | some r => fromisoformat r

/-- Python `loc.split(",")` on `List Char`. `splitOnComma l` is never
empty, so the head/tail reassembly in the cons case is exact. -/
def splitOnComma : Str → List Str
  | [] => [[]]
  | c :: cs =>
    let rest := splitOnComma cs
    if c = ',' then [] :: rest
    else (c :: rest.headI) :: rest.tail

/-- `get_zoom_link(event, args)` (the `args` parameter is only used for
debug printing, which has no effect on the result and is omitted).
`Except.error ()` models an uncaught `StopIteration` escaping from
`next(...)` when the generator is exhausted. -/
def get_zoom_link (event : RawEvent) : Except Unit (Option Str) :=
  let loc := event.location.getD []
  if zoomMarker <:+: loc then
    if ',' ∈ loc then
      match (splitOnComma loc).find? (fun l => decide (zoomMarker <:+: l)) with
      | some seg => Except.ok (some seg)
      | none => Except.error ()
    else Except.ok (some loc)
  else
    let eps := (event.conferenceData.getD [])
    if eps = [] then Except.ok none
    else
      match eps.find? (fun ep => decide (zoomMarker <:+: ep.uri.getD [])) with
      | some found => Except.ok (some (found.uri.getD []))
      | none => Except.error ()

/-- The `MyEvent` dataclass. `start` is typed `datetime` in the source
but `augment` can in fact store `None` there, hence `Option Int`. -/
structure MyEvent where
  id : Str
  start : Option Int
  summary : Str
  is_not_day_event : Bool := true
  in_progress : Bool := false
  is_next_joinable : Bool := false
  zoom_link : Option Str := none
  icon : Option Str := none
deriving DecidableEq

/-- Modelled from the spec: `z.is_not_day_only` lives in `zoom.py`,
which is not among the sources; spec §4.2 says "`is_timed` = true iff
the raw start marker is a precise instant (not a whole-day date)", so
it is modelled as the raw start dict carrying a `dateTime` key rather
than only a `date` key. -/
def is_not_day_only (event : RawEvent) : Bool :=
  event.start.dateTime.isSome

/-- The evaluation of
`in_progress = is_not_day and start <= args.now and end >= args.now`
with Python short-circuiting: comparing `None` with a datetime raises
TypeError (`Except.error ()`). -/
def compute_in_progress (is_not_day : Bool) (start endT : Option Int) (now : Int) :
    Except Unit Bool :=
  if is_not_day then
    match start with
    | none => Except.error ()
    | some s =>
      if s ≤ now then
        match endT with
        | none => Except.error ()
        | some en => Except.ok (now ≤ en)
      else Except.ok false
  else Except.ok false

/-- The evaluation of
`if is_not_day and not in_progress and start > args.now:
   is_next_joinable = (start - args.now) < timedelta(minutes=3)`
(initialised to `False`), again with a TypeError when `start` is
`None` and the first two conjuncts hold. -/
def compute_is_next_joinable (is_not_day : Bool) (in_progress : Bool)
    (start : Option Int) (now : Int) : Except Unit Bool :=
  if is_not_day && !in_progress then
    match start with
    | none => Except.error ()
    | some s =>
      if now < s then Except.ok (s - now < JOINABLE_IF_NEXT_STARTS_WITHIN)
      else Except.ok false
  else Except.ok false

/-- The per-event `augment` closure inside `parse_events`,
parameterised by `convert_to_zoom_protocol` (which lives in the absent
`zoom.py`; per spec §4.1 it is a pure string rule, so it is passed in
as an arbitrary function — no claim depends on its mapping). Any
exception raised inside propagates out as `Except.error`. -/
def augment (convert_to_zoom_protocol : Str → Str) (now : Int)
    (event : RawEvent) : Except Unit MyEvent :=
  match compute_in_progress (is_not_day_only event)
      (parse_event_datetime event.start) (parse_event_datetime event.«end») now with
  | Except.error u => Except.error u
  | Except.ok in_progress =>
    match compute_is_next_joinable (is_not_day_only event) in_progress
        (parse_event_datetime event.start) now with
    | Except.error u => Except.error u
    | Except.ok is_next_joinable =>
      match get_zoom_link event with
      | Except.error u => Except.error u
      | Except.ok link =>
        Except.ok {
          id := event.id
          start := parse_event_datetime event.start
          summary := event.summary
          is_not_day_event := is_not_day_only event
          in_progress := in_progress
          is_next_joinable := is_next_joinable
          zoom_link :=
            match link with
            | some l => if l = [] then none else some (convert_to_zoom_protocol l)
            | none => none
          icon := some (
            if "1:1".toList <:+: event.summary then "one.png".toList
            else if "Standup".toList <:+: event.summary then "standup.png".toList
            else "icon.png".toList) }

/-- `parse_events(events, args)`: `list(map(augment, events))`, where a
raised exception in any `augment` call aborts the whole map. -/
def parse_events (convert_to_zoom_protocol : Str → Str) (now : Int)
    (events : List RawEvent) : Except Unit (List MyEvent) :=
  events.mapM (augment convert_to_zoom_protocol now)

/-- The `NextMeetingOptions` enum. -/
inductive NextMeetingOptions where
  | FoundNextMeeting
  | MultipleOptions
  | NoOptions
deriving DecidableEq

/-- `find_meeting_to_join(events, args)` (`args` again only feeds a
debug print). `next[0]` under the `len(next) == 1` guard is `head?`. -/
def find_meeting_to_join (events : List MyEvent) :
    NextMeetingOptions × Option MyEvent :=
  if events = [] then (NextMeetingOptions.NoOptions, none)
  else
    let in_progress := events.filter (fun e => e.in_progress)
    let next := events.filter (fun e => e.is_next_joinable)
    if next.length = 1 then (NextMeetingOptions.FoundNextMeeting, next.head?)
    else if in_progress.length = 1 then
      (NextMeetingOptions.FoundNextMeeting, in_progress.head?)
    else (NextMeetingOptions.MultipleOptions, none)

/-! ### Concrete sample data used by evaluations and witnesses -/

/-- A whole-day marker (only a `date` key). -/
def dayMarker : DateMarker := { dateTime := none, date := some (RawDT.parseable 0) }

/-- A timed marker parsing to instant `t`. -/
def timedMarker (t : Int) : DateMarker := { dateTime := some (RawDT.parseable t), date := none }

/-- A timed marker whose value `fromisoformat` rejects. -/
def badTimedMarker : DateMarker := { dateTime := some RawDT.malformed, date := none }

/-- Failing input for C1: a timed event whose start parses to `0` but
whose end value is malformed; at `now = 5` the code evaluates
`end >= args.now` with `end = None` and raises TypeError. -/
def c1Event : RawEvent :=
  { id := "e1".toList
    summary := "Weekly sync".toList
    start := timedMarker 0
    «end» := badTimedMarker
    location := none
    conferenceData := none }

/-- Failing input for C2: no usable location, and a non-empty
entry-point list none of whose URIs contains `zoom.us`. -/
def c2Event : RawEvent :=
  { id := "e2".toList
    summary := "Offsite".toList
    start := timedMarker 0
    «end» := timedMarker 30
    location := none
    conferenceData := some [ { uri := some "https://meet.google.com/abc".toList } ] }

/-- The event of C3: a location mixing a street address and a zoom
link, separated by `", "`. -/
def c3Event : RawEvent :=
  { id := "e3".toList
    summary := "Planning".toList
    start := timedMarker 0
    «end» := timedMarker 30
    location := some "123 Main St, https://zoom.us/j/111".toList
    conferenceData := none }

/-- A meeting that is imminently joinable (and in nothing else special). -/
def meetA : MyEvent :=
  { id := "a".toList, start := some 10, summary := "A".toList, is_next_joinable := true }

/-- A second imminently joinable meeting. -/
def meetB : MyEvent :=
  { id := "b".toList, start := some 11, summary := "B".toList, is_next_joinable := true }

/-- An in-progress meeting. -/
def meetC : MyEvent :=
  { id := "c".toList, start := some (-5), summary := "C".toList, in_progress := true }

/-- A meeting with both temporal flags false. -/
def meetD : MyEvent :=
  { id := "d".toList, start := some 100, summary := "D".toList }

/-! ### Claims -/

/-- C1: the claim says normalization is total — an unparseable start or
end value is treated as absent and the temporal flags degrade to false
without an error. The code is not total: for the timed event `c1Event`
(start parses to 0, end value malformed) at `now = 5`, `augment`
evaluates `end >= args.now` with `end = None` and raises TypeError
(modelled as `Except.error ()`), instead of producing a meeting with
false flags. -/
theorem c1_augment_raises_on_malformed_end :
    augment (fun s => s) 5 c1Event = Except.error () := by decide

/-- C2: the claim says a present, non-empty entry-point list with no
entry whose URI contains `zoom.us` yields an absent link without
raising. The code instead raises StopIteration: on `c2Event` (no
location, one Google-Meet entry point) the unguarded
`next(ep for ep in eps if "zoom.us" in ep.get("uri", ""))` is
exhausted, modelled as `Except.error ()`. -/
theorem c2_get_zoom_link_raises_on_no_match :
    get_zoom_link c2Event = Except.error () := by decide

/-- C3 counterexample: on the location
`"123 Main St, https://zoom.us/j/111"` the code does NOT return exactly
`"https://zoom.us/j/111"` — `str.split(",")` keeps the space after the
comma, so the selected segment carries a leading space. -/
theorem c3_counterexample :
    get_zoom_link c3Event ≠ Except.ok (some "https://zoom.us/j/111".toList) := by
  decide

/-- C3 amended: on that location, `get_zoom_link` returns exactly
`" https://zoom.us/j/111"` — the first comma-separated segment
containing `zoom.us`, with its leading whitespace preserved. -/
theorem c3_amended_segment_with_leading_space :
    get_zoom_link c3Event = Except.ok (some " https://zoom.us/j/111".toList) := by
  decide

/-- C7: on the empty candidate list, `find_meeting_to_join` returns
`NoOptions` with no meeting selected. -/
theorem c7_empty_gives_no_options :
    find_meeting_to_join [] = (NextMeetingOptions.NoOptions, none) := rfl

/-- C4: if exactly one meeting in the list is `is_next_joinable`
(the code's field for "imminently joinable"), `find_meeting_to_join`
returns `FoundNextMeeting` carrying that meeting, regardless of how
many meetings are `in_progress`. -/
theorem c4_unique_imminent_is_resolved (events : List MyEvent) (m : MyEvent)
    (h : events.filter (fun e => e.is_next_joinable) = [m]) :
    find_meeting_to_join events = (NextMeetingOptions.FoundNextMeeting, some m) := by
  have hne : events ≠ [] := by
    intro he
    rw [he] at h
    simp at h
  simp [find_meeting_to_join, hne, h]

/-- C4 witness: `[meetA, meetC]` has exactly one imminently joinable
meeting (`meetA`) and one in-progress meeting, and resolves to
`meetA`. -/
theorem c4_witness :
    find_meeting_to_join [meetA, meetC] =
      (NextMeetingOptions.FoundNextMeeting, some meetA) :=
  c4_unique_imminent_is_resolved [meetA, meetC] meetA (by decide)

/-- C5: if no meeting is imminently joinable and exactly one is in
progress, `find_meeting_to_join` returns `FoundNextMeeting` carrying
the in-progress meeting. -/
theorem c5_unique_in_progress_is_resolved (events : List MyEvent) (m : MyEvent)
    (h1 : events.filter (fun e => e.is_next_joinable) = [])
    (h2 : events.filter (fun e => e.in_progress) = [m]) :
    find_meeting_to_join events = (NextMeetingOptions.FoundNextMeeting, some m) := by
  have hne : events ≠ [] := by
    intro he
    rw [he] at h2
    simp at h2
  simp [find_meeting_to_join, hne, h1, h2]

/-- C5 witness: `[meetD, meetC]` has no imminently joinable meeting and
exactly one in-progress meeting (`meetC`), and resolves to `meetC`. -/
theorem c5_witness :
    find_meeting_to_join [meetD, meetC] =
      (NextMeetingOptions.FoundNextMeeting, some meetC) :=
  c5_unique_in_progress_is_resolved [meetD, meetC] meetC (by decide) (by decide)

/-- C6 counterexample: the claim as stated is false. With two
imminently joinable meetings and exactly one in-progress meeting, the
code does not return `MultipleOptions`: the `len(next) == 1` check
fails but the `len(in_progress) == 1` check then resolves to the
in-progress meeting (as spec §4.3's ordered policy prescribes,
contradicting the claim's sentence from §8). -/
theorem c6_counterexample :
    2 ≤ (([meetA, meetB, meetC]).filter (fun e => e.is_next_joinable)).length ∧
    find_meeting_to_join [meetA, meetB, meetC] ≠
      (NextMeetingOptions.MultipleOptions, none) := by
  decide

/-- C6 amended: for a non-empty list, if two or more meetings are
imminently joinable AND the number of in-progress meetings is not
exactly one, or zero are imminently joinable and two or more are in
progress, `find_meeting_to_join` returns `MultipleOptions` with no
meeting selected. -/
theorem c6_amended_ambiguous_gives_multiple (events : List MyEvent)
    (hne : events ≠ [])
    (h : (2 ≤ (events.filter (fun e => e.is_next_joinable)).length ∧
          (events.filter (fun e => e.in_progress)).length ≠ 1) ∨
         ((events.filter (fun e => e.is_next_joinable)).length = 0 ∧
          2 ≤ (events.filter (fun e => e.in_progress)).length)) :
    find_meeting_to_join events = (NextMeetingOptions.MultipleOptions, none) := by
  rcases h with ⟨h1, h2⟩ | ⟨h1, h2⟩
  · have hn1 : (events.filter (fun e => e.is_next_joinable)).length ≠ 1 := by omega
    simp [find_meeting_to_join, hne, hn1, h2]
  · have hn1 : (events.filter (fun e => e.is_next_joinable)).length ≠ 1 := by omega
    have hn2 : (events.filter (fun e => e.in_progress)).length ≠ 1 := by omega
    simp [find_meeting_to_join, hne, hn1, hn2]

/-- C6 amended witness: `[meetA, meetB]` (two imminent, zero in
progress) yields `MultipleOptions`. -/
theorem c6_witness :
    find_meeting_to_join [meetA, meetB] =
      (NextMeetingOptions.MultipleOptions, none) :=
  c6_amended_ambiguous_gives_multiple [meetA, meetB] (by decide)
    (Or.inl (by constructor <;> decide))

/-- C9: whenever `find_meeting_to_join` returns `FoundNextMeeting` with
meeting `m`, then `m` is an element of the input list and `m` is
imminently joinable or in progress; a meeting with both flags false is
never selected. -/
theorem c9_resolved_comes_from_input (events : List MyEvent) (m : MyEvent)
    (h : find_meeting_to_join events =
      (NextMeetingOptions.FoundNextMeeting, some m)) :
    m ∈ events ∧ (m.is_next_joinable = true ∨ m.in_progress = true) := by
  by_cases hne : events = []
  · rw [hne] at h
    simp [find_meeting_to_join] at h
  · simp only [find_meeting_to_join, if_neg hne] at h
    split at h
    · have hh : (events.filter (fun e => e.is_next_joinable)).head? = some m := by
        simpa using h
      have hm : m ∈ events.filter (fun e => e.is_next_joinable) :=
        List.mem_of_mem_head? hh
      rcases List.mem_filter.mp hm with ⟨hmem, hp⟩
      exact ⟨hmem, Or.inl hp⟩
    · split at h
      · have hh : (events.filter (fun e => e.in_progress)).head? = some m := by
          simpa using h
        have hm : m ∈ events.filter (fun e => e.in_progress) :=
          List.mem_of_mem_head? hh
        rcases List.mem_filter.mp hm with ⟨hmem, hp⟩
        exact ⟨hmem, Or.inr hp⟩
      · simp at h

/-- C9 witness: applied to the resolution of `[meetA, meetC]`. -/
theorem c9_witness :
    meetA ∈ [meetA, meetC] ∧
      (meetA.is_next_joinable = true ∨ meetA.in_progress = true) :=
  c9_resolved_comes_from_input [meetA, meetC] meetA (by decide)

/-- With `in_progress = true` the joinability guard
`is_not_day and not in_progress and ...` is false, so the flag stays
false. -/
theorem joinable_false_of_in_progress (d : Bool) (st : Option Int) (now : Int)
    (b : Bool) (h : compute_is_next_joinable d true st now = Except.ok b) :
    b = false := by
  simp [compute_is_next_joinable] at h
  exact h

/-- With `is_not_day = false` the in-progress conjunction is false. -/
theorem in_progress_false_of_day (st et : Option Int) (now : Int) (b : Bool)
    (h : compute_in_progress false st et now = Except.ok b) : b = false := by
  simp [compute_in_progress] at h
  exact h

/-- With `is_not_day = false` the joinability guard is false. -/
theorem joinable_false_of_day (ip : Bool) (st : Option Int) (now : Int) (b : Bool)
    (h : compute_is_next_joinable false ip st now = Except.ok b) : b = false := by
  simp [compute_is_next_joinable] at h
  exact h

/-- C8: whenever `augment` succeeds, the resulting meeting never has
`in_progress` and `is_next_joinable` both true, and when
`is_not_day_event` is false both flags are false. -/
theorem c8_flags_invariant (convert_to_zoom_protocol : Str → Str) (now : Int)
    (e : RawEvent) (m : MyEvent)
    (h : augment convert_to_zoom_protocol now e = Except.ok m) :
    ¬(m.in_progress = true ∧ m.is_next_joinable = true) ∧
    (m.is_not_day_event = false →
      m.in_progress = false ∧ m.is_next_joinable = false) := by
  unfold augment at h
  split at h
  · exact Except.noConfusion h
  rename_i ip hip
  split at h
  · exact Except.noConfusion h
  rename_i nj hnj
  split at h
  · exact Except.noConfusion h
  rename_i link hlink
  injection h with h
  subst h
  refine ⟨?_, ?_⟩
  · rintro ⟨h1, h2⟩
    dsimp at h1 h2
    subst h1
    have hb := joinable_false_of_in_progress _ _ _ _ hnj
    rw [hb] at h2
    exact Bool.noConfusion h2
  · intro hd
    dsimp at hd ⊢
    rw [hd] at hip hnj
    exact ⟨in_progress_false_of_day _ _ _ _ hip,
      joinable_false_of_day _ _ _ _ hnj⟩

/-- A whole-day raw event with no link data. -/
def c8Event : RawEvent :=
  { id := "w".toList
    summary := "All day".toList
    start := dayMarker
    «end» := dayMarker
    location := none
    conferenceData := none }

/-- The meeting `augment` produces from `c8Event` at `now = 5`. -/
def c8Meeting : MyEvent :=
  { id := "w".toList
    start := some 0
    summary := "All day".toList
    is_not_day_event := false
    in_progress := false
    is_next_joinable := false
    zoom_link := none
    icon := some "icon.png".toList }

/-- C8 witness: the invariant instantiated on the normalization of the
whole-day event `c8Event`. -/
theorem c8_witness :
    ¬(c8Meeting.in_progress = true ∧ c8Meeting.is_next_joinable = true) ∧
    (c8Meeting.is_not_day_event = false →
      c8Meeting.in_progress = false ∧ c8Meeting.is_next_joinable = false) :=
  c8_flags_invariant (fun s => s) 5 c8Event c8Meeting (by decide)

/-- `splitOnComma` never returns the empty list (Python `split` always
returns at least one piece). -/
theorem splitOnComma_ne_nil (l : Str) : splitOnComma l ≠ [] := by
  cases l with
  | nil => simp [splitOnComma]
  | cons c cs =>
    simp only [splitOnComma]
    split <;> simp

/-- A comma-free prefix of `l` is a prefix of the first piece of
`splitOnComma l`. -/
theorem comma_free_prefix_headI :
    ∀ (m l : Str), ',' ∉ m → m <+: l → m <+: (splitOnComma l).headI := by
  intro m
  induction m with
  | nil => intro l _ _; exact ⟨(splitOnComma l).headI, rfl⟩
  | cons c m ih =>
    intro l hm hp
    cases l with
    | nil =>
      have hnil := List.prefix_nil.mp hp
      exact absurd hnil (by simp)
    | cons d cs =>
      rcases List.cons_prefix_cons.mp hp with ⟨rfl, hp2⟩
      have hc : ¬(c = ',') := fun h => hm (h ▸ List.mem_cons_self c m)
      have hsplit : splitOnComma (c :: cs) =
          (c :: (splitOnComma cs).headI) :: (splitOnComma cs).tail := by
        simp [splitOnComma, hc]
      rw [hsplit, List.headI_cons]
      exact List.cons_prefix_cons.mpr
        ⟨rfl, ih cs (fun hmem => hm (List.mem_cons_of_mem c hmem)) hp2⟩

/-- The heart of C10: a comma-free pattern occurring inside `l` occurs
inside one of the pieces of `splitOnComma l`; so the `next(...)` over
the split pieces can never be exhausted when the pattern occurred in
the whole string. -/
theorem exists_comma_segment :
    ∀ (m l : Str), ',' ∉ m → m <:+: l → ∃ s ∈ splitOnComma l, m <:+: s := by
  intro m l
  induction l with
  | nil =>
    intro _ hi
    refine ⟨[], by simp [splitOnComma], ?_⟩
    rw [List.infix_nil.mp hi]
  | cons c cs ih =>
    intro hm hi
    rcases List.infix_cons_iff.mp hi with hp | hsuf
    · by_cases hc : c = ','
      · cases m with
        | nil =>
          rcases List.exists_cons_of_ne_nil (splitOnComma_ne_nil (c :: cs)) with
            ⟨a, t, hat⟩
          exact ⟨a, hat ▸ List.mem_cons_self a t, ⟨[], a, by simp⟩⟩
        | cons b m2 =>
          rcases List.cons_prefix_cons.mp hp with ⟨rfl, _⟩
          exact absurd (hc ▸ List.mem_cons_self b m2) hm
      · have hpre := comma_free_prefix_headI m (c :: cs) hm hp
        rcases List.exists_cons_of_ne_nil (splitOnComma_ne_nil (c :: cs)) with
          ⟨a, t, hat⟩
        have hha : (splitOnComma (c :: cs)).headI = a := by rw [hat]; rfl
        rw [hha] at hpre
        exact ⟨a, hat ▸ List.mem_cons_self a t, hpre.isInfix⟩
    · rcases ih hm hsuf with ⟨s, hs, hinf⟩
      by_cases hc : c = ','
      · refine ⟨s, ?_, hinf⟩
        rw [show splitOnComma (c :: cs) = [] :: splitOnComma cs by
          simp [splitOnComma, hc]]
        exact List.mem_cons_of_mem [] hs
      · rcases List.exists_cons_of_ne_nil (splitOnComma_ne_nil cs) with ⟨a, t, hat⟩
        have hsplit : splitOnComma (c :: cs) = (c :: a) :: t := by
          simp [splitOnComma, hc, hat]
        rw [hat] at hs
        rcases List.mem_cons.mp hs with rfl | hmem
        · refine ⟨c :: s, ?_, List.infix_cons hinf⟩
          rw [hsplit]
          exact List.mem_cons_self (c :: s) t
        · refine ⟨s, ?_, hinf⟩
          rw [hsplit]
          exact List.mem_cons_of_mem (c :: a) hmem

/-- C10: when the free-text location contains `zoom.us`, `get_zoom_link`
returns a present link computed from the location alone — any other
event with the same location (`e2`, arbitrary elsewhere, in particular
in its entry-point list) gets the identical result — and the comma-split
selection in this branch cannot be exhausted (the marker is comma-free,
so it lies inside a single segment), hence the branch never raises. -/
theorem c10_location_branch_never_raises (e e2 : RawEvent) (loc : Str)
    (h1 : e.location = some loc) (h2 : e2.location = some loc)
    (hz : zoomMarker <:+: loc) :
    (∃ seg, get_zoom_link e = Except.ok (some seg)) ∧
      get_zoom_link e = get_zoom_link e2 := by
  constructor
  · by_cases hc : ',' ∈ loc
    · rcases exists_comma_segment zoomMarker loc (by decide) hz with ⟨s, hs, hsinf⟩
      have hfind : ((splitOnComma loc).find? (fun l => decide (zoomMarker <:+: l))).isSome := by
        rw [List.find?_isSome]
        exact ⟨s, hs, by simpa using hsinf⟩
      rcases Option.isSome_iff_exists.mp hfind with ⟨seg, hseg⟩
      refine ⟨seg, ?_⟩
      simp only [get_zoom_link, h1, Option.getD_some, if_pos hz, if_pos hc, hseg]
    · refine ⟨loc, ?_⟩
      simp only [get_zoom_link, h1, Option.getD_some, if_pos hz, if_neg hc]
  · simp only [get_zoom_link, h1, h2, Option.getD_some, if_pos hz]

/-- An event with a plain zoom location and no structured data. -/
def c10EventA : RawEvent :=
  { id := "x".toList
    summary := "X".toList
    start := timedMarker 0
    «end» := timedMarker 30
    location := some "https://zoom.us/j/5".toList
    conferenceData := none }

/-- Same location, but with a structured entry-point list that contains
no zoom entry — it must not be consulted. -/
def c10EventB : RawEvent :=
  { c10EventA with
    conferenceData := some [ { uri := some "https://example.com".toList } ] }

/-- C10 witness: instantiated on `c10EventA` / `c10EventB`. -/
theorem c10_witness :
    (∃ seg, get_zoom_link c10EventA = Except.ok (some seg)) ∧
      get_zoom_link c10EventA = get_zoom_link c10EventB :=
  c10_location_branch_never_raises c10EventA c10EventB
    ("https://zoom.us/j/5".toList) rfl rfl (by decide)
